import Mathlib

/-!
Shallow embedding of the churn / risk classification core of
`src/pages/login_externo.py` (Sistema Syntox Churn).

Dates are modelled as day numbers counted from the epoch 0000-03-01 of the
proleptic Gregorian calendar (the standard civil-days encoding); `ℚ` stands
for the float values of the source, with `Option ℚ` marking missing / NaN
cells of a dataframe column.
-/

namespace Syntox

/-! ## Calendar (proleptic Gregorian, day numbers with epoch 0000-03-01) -/

/-- Day number of the civil date `(y, m, d)`: days elapsed since 0000-03-01. -/
def daysFromCivil (y m d : Int) : Int :=
  let y' : Int := if m ≤ 2 then y - 1 else y
  let m' : Int := if m ≤ 2 then m + 9 else m - 3
  365 * y' + y'.fdiv 4 - y'.fdiv 100 + y'.fdiv 400 + (153 * m' + 2).fdiv 5 + d - 1

/-- Civil date `(y, m, d)` of a day number (inverse of `daysFromCivil`). -/
def civilFromDays (n : Int) : Int × Int × Int :=
  let era := n.fdiv 146097
  let doe := n - era * 146097
  let yoe := (doe - doe.fdiv 1460 + doe.fdiv 36524 - doe.fdiv 146096).fdiv 365
  let doy := doe - (365 * yoe + yoe.fdiv 4 - yoe.fdiv 100)
  let mp := (5 * doy + 2).fdiv 153
  let d := doy - (153 * mp + 2).fdiv 5 + 1
  let m := if mp < 10 then mp + 3 else mp - 9
  let y := yoe + era * 400
  (if m ≤ 2 then y + 1 else y, m, d)

/-- Weekday of a day number, with Monday = 0, …, Sunday = 6. -/
def weekdayMon (n : Int) : Int := (n + 2).emod 7

/-- Business day (Monday–Friday), as used by `pd.bdate_range`. -/
def isBusinessDay (n : Int) : Bool := weekdayMon n < 5

/-- ISO-8601 `(iso_year, iso_week)` of a day number, as `date.isocalendar()`. -/
def isoYearWeek (n : Int) : Int × Int :=
  let thursday := n + 3 - weekdayMon n
  let y := (civilFromDays thursday).1
  ⟨y, (thursday - daysFromCivil y 1 1).fdiv 7 + 1⟩

/-- Day number of `datetime.fromisocalendar(y, w, d)` (`d` = 1 for Monday … 7
for Sunday): `d`-th day of the `w`-th ISO week of ISO year `y`. -/
def fromisocalendar (y w d : Int) : Int :=
  let jan4 := daysFromCivil y 1 4
  let week1mon := jan4 - weekdayMon jan4
  week1mon + 7 * (w - 1) + (d - 1)

/-! ## RiskEngine (`RiskEngine._serie_business_day`, `_rolling_means`,
`classificar` — lines 1180-1358 of `src/pages/login_externo.py`)

A pandas series indexed by dates is an association list `List (Int × ℚ)`
(sorted, unique index in every use below); a missing / NaN float is `none`. -/

/-- The last `n` entries of a list (`pandas .tail(n)`). -/
def tailN {α : Type} (n : Nat) (l : List α) : List α := l.drop (l.length - n)

/-- `pandas .mean()` of a list of values (sum / length). -/
def mean (l : List ℚ) : ℚ := l.sum / l.length

namespace RiskEngine

/-- `pd.bdate_range(start, fin)`: business days from `start` to `fin`. -/
def bdateRange (start fin : Int) : List Int :=
  ((List.range (fin + 1 - start).toNat).map (fun i : Nat => start + (i : Int))).filter
    isBusinessDay

/-- `_serie_business_day`: reindex a sparse series onto the business-day
calendar from its first recorded date through `ref`, filling absent days
with 0 (`s.reindex(pd.bdate_range(start, ref), fill_value=0)`). -/
def serie_business_day (s : List (Int × ℚ)) (ref : Int) : List (Int × ℚ) :=
  if s = [] then s else
    let start := ((s.map Prod.fst).min?).getD ref
    let r := if ref < start then start else ref
    let idx := bdateRange start r
    let idx := if idx = [] then [r] else idx
    idx.map (fun d => (d, (List.lookup d s).getD 0))

/-- The dict returned by `_rolling_means` (only numeric fields). -/
structure Stats where
  MM7 : ℚ
  MM30 : ℚ
  MM90 : ℚ
  D1 : ℚ
  DOW : ℚ
  HOJE : ℚ
  zeros_consec : Nat
  quedas50_consec : Nat
  deriving Repr, DecidableEq

/-- The all-zero stats dict returned for an empty series or a reference
date outside the index. -/
def zeroStats : Stats := ⟨0, 0, 0, 0, 0, 0, 0, 0⟩

/-- Count of consecutive trailing zeros of a value list (the
`for valor in serie_ate_ref[::-1]` loop). -/
def zerosConsec (l : List ℚ) : Nat :=
  (l.reverse.takeWhile (fun v => v == 0)).length

/-- `_is_queda50(idx)`: the value at `idx` is below 50% of the MM7 computed
from data available up to `idx`, provided that MM7 is positive. -/
def is_queda50 (s : List (Int × ℚ)) (idx : Int) : Bool :=
  let mm7_local := mean (tailN 7 ((s.filter (fun p => p.1 ≤ idx)).map Prod.snd))
  if 0 < mm7_local then decide ((List.lookup idx s).getD 0 < 0.5 * mm7_local)
  else false

/-- `_rolling_means`: MM7/MM30/MM90, D-1, per-weekday mean, today's value and
the trailing-zero / drop-50% streak counters. -/
def rolling_means (s : List (Int × ℚ)) (ref : Int) : Stats :=
  if s = [] then zeroStats else
  match List.lookup ref s with
  | none => zeroStats
  | some hoje =>
    let serie_ate_ref := s.filter (fun p => p.1 ≤ ref)
    let d1 : ℚ :=
      if 1 < serie_ate_ref.length then ((serie_ate_ref.reverse[1]?).map Prod.snd).getD 0 else 0
    let vals := serie_ate_ref.map Prod.snd
    let dow := weekdayMon ref
    let dow_vals := (serie_ate_ref.filter (fun p => weekdayMon p.1 = dow)).map Prod.snd
    { MM7 := mean (tailN 7 vals)
      MM30 := mean (tailN 30 vals)
      MM90 := mean (tailN 90 vals)
      D1 := d1
      DOW := if dow_vals.length ≠ 0 then mean (tailN 90 dow_vals) else 0
      HOJE := hoje
      zeros_consec := zerosConsec vals
      quedas50_consec := (tailN 3 serie_ate_ref).countP (fun p => is_queda50 s p.1) }

/-- `contexto_mm`: present (`_to_float` non-None) and strictly positive
context MM7 values, in the order country / state / city. -/
def contextoMM (mm7_br mm7_uf mm7_cidade : Option ℚ) : List ℚ :=
  ([mm7_br, mm7_uf, mm7_cidade].filterMap id).filter (fun mm => 0 < mm)

/-- The `reducoes` list: `max(0, 1 - hoje/mm_ctx)` per positive context. -/
def reducoes (hoje : ℚ) (ctx : List ℚ) : List ℚ :=
  ctx.map (fun mm => max 0 (if 0 < mm then 1 - hoje / mm else 0))

/-- `maior_reducao = max(reducoes) if reducoes else 0.0`; every entry of
`reducoes` is `max 0 _ ≥ 0`, so folding `max` with neutral element 0 agrees
with Python's `max` on the nonempty case and yields 0 on the empty one. -/
def maiorReducao (hoje : ℚ) (ctx : List ℚ) : ℚ :=
  (reducoes hoje ctx).foldr max 0

/-- `reducao_zero_absoluto = any(mm_ctx > 0 and hoje == 0 for mm_ctx in contexto_mm)`. -/
def reducaoZeroAbsoluto (hoje : ℚ) (ctx : List ℚ) : Bool :=
  ctx.any (fun mm => decide (0 < mm) && decide (hoje = 0))

/-- Daily risk severity labels (🟢 Normal / 🟡 Atenção / 🟠 Moderado /
🔴 Alto / ⚫ Crítico). -/
inductive Risco
  | Normal
  | Atencao
  | Moderado
  | Alto
  | Critico
  deriving Repr, DecidableEq

/-- Ordinal level of a severity label, Normal = 0 < … < Crítico = 4. -/
def Risco.level : Risco → Nat
  | .Normal => 0
  | .Atencao => 1
  | .Moderado => 2
  | .Alto => 3
  | .Critico => 4

/-- The if/elif severity chain of `classificar` (lines 1337-1346), with the
configured `REDUCAO_MEDIO_RISCO` / `REDUCAO_ALTO_RISCO` thresholds as
parameters (they come from the external `config_churn` module). -/
def nivelRisco (absZero : Bool) (maior : ℚ) (zeros quedas : Nat)
    (limiar_medio limiar_alto : ℚ) : Risco :=
  if absZero = true ∨ 1 ≤ maior ∨ 7 ≤ zeros ∨ 3 ≤ quedas then .Critico
  else if limiar_alto ≤ maior then .Alto
  else if limiar_medio ≤ maior then .Moderado
  else if 0 < maior then .Atencao
  else .Normal

/-- Severity part of `classificar` applied to an already computed stats dict
and the three context MM7 cells of the row. -/
def classificarRisco (m : Stats) (mm7_br mm7_uf mm7_cidade : Option ℚ)
    (limiar_medio limiar_alto : ℚ) : Risco :=
  let ctx := contextoMM mm7_br mm7_uf mm7_cidade
  nivelRisco (reducaoZeroAbsoluto m.HOJE ctx) (maiorReducao m.HOJE ctx)
    m.zeros_consec m.quedas50_consec limiar_medio limiar_alto

/-- `RiskEngine.classificar` (severity path): parse of `Dados_Diarios_2025`
is abstracted into the sparse series `sparse`; `ref` is the reference
business day (`_last_business_day()`); returns `none` exactly when the
series is empty (the source returns `{}`). -/
def classificar (sparse : List (Int × ℚ)) (ref : Int)
    (mm7_br mm7_uf mm7_cidade : Option ℚ) (limiar_medio limiar_alto : ℚ) :
    Option Risco :=
  let s := serie_business_day sparse ref
  if s = [] then none
  else some (classificarRisco (rolling_means s ref) mm7_br mm7_uf mm7_cidade
    limiar_medio limiar_alto)

/-- Severity level of an optional classification result (`none` → 0). -/
def nivelOpt (o : Option Risco) : Nat := (o.map Risco.level).getD 0

end RiskEngine

/-! ## `preparar_dataframe_risco` and the weekly risk list
(lines 1908-2120 and 3004-3023 of `src/pages/login_externo.py`)

A dataframe is a `List RowRisco`; `CNPJ_Normalizado` is always a `String`
(`DataManager.normalizar_cnpj` returns `''` for missing input, never NaN);
other cells may be NaN (`none`). -/

/-- One dataframe row, restricted to the columns the risk list reads. -/
structure RowRisco where
  CNPJ_Normalizado : String
  Classificacao_Perda_V2 : Option String
  WoW_Semana_Atual : Option ℚ
  WoW_Semana_Anterior : Option ℚ
  Risco_Por_Dias_Sem_Coleta : Option Bool
  Queda_Media_25_Pct : Option ℚ
  Queda_Media_24_Pct : Option ℚ
  Queda_Estado_Pct : Option ℚ
  deriving Repr, DecidableEq

/-- `calcular_media_top3`: mean of the top 3 strictly positive month values
of the row (fewer when fewer exist, 0 when none); `none` cells are the NaN
results of `pd.to_numeric(..., errors='coerce')`. -/
def calcular_media_top3 (valores_meses : List (Option ℚ)) : ℚ :=
  let valores := (valores_meses.filterMap id).filter (fun v => 0 < v)
  if valores = [] then 0
  else
    let valores_ordenados := valores.insertionSort (fun a b => b ≤ a)
    let top3 := valores_ordenados.take 3
    top3.sum / top3.length

/-- `Variacao_Semanal_Pct`: `(atual - ant)/ant × 100` under
`mask_valido = (vol_ant > 0) & vol_ant.notna() & vol_atual.notna()`, NaN
otherwise. -/
def variacaoSemanalPct (r : RowRisco) : Option ℚ :=
  match r.WoW_Semana_Anterior, r.WoW_Semana_Atual with
  | some ant, some atual => if 0 < ant then some ((atual - ant) / ant * 100) else none
  | _, _ => none

/-- `Queda_Semanal_Pct`: `(ant - atual)/ant × 100` under the same mask. -/
def quedaSemanalPct (r : RowRisco) : Option ℚ :=
  match r.WoW_Semana_Anterior, r.WoW_Semana_Atual with
  | some ant, some atual => if 0 < ant then some ((ant - atual) / ant * 100) else none
  | _, _ => none

/-- `queda_valida = Queda_Semanal_Pct.notna() & (Queda_Semanal_Pct >= 50)`. -/
def quedaValida (r : RowRisco) : Bool :=
  match quedaSemanalPct r with
  | some q => decide (50 ≤ q)
  | none => false

/-- A row whose `Classificacao_Perda_V2` marks it as a loss: the union of
`perdas_recentes` (`== 'Perda Recente'`) and `perdas_antigas`
(`.isin(['Perda Antiga', 'Perda Consolidada'])`). -/
def isPerda (r : RowRisco) : Bool :=
  r.Classificacao_Perda_V2 == some "Perda Recente"
    || r.Classificacao_Perda_V2 == some "Perda Antiga"
    || r.Classificacao_Perda_V2 == some "Perda Consolidada"

/-- `cnpjs_perdas`: CNPJs of recent + old loss rows. -/
def cnpjs_perdas (df : List RowRisco) : List String :=
  (df.filter isPerda).map RowRisco.CNPJ_Normalizado

/-- The `Em_Risco` column produced by `preparar_dataframe_risco`:
`risco_dias | queda_valida`, then forced to `False` for rows whose CNPJ is
among `cnpjs_perdas` (the `work.loc[mask_perdas, 'Em_Risco'] = False`
assignment; the `if cnpjs_perdas:` guard is a no-op since a member forces
the set nonempty). -/
def em_risco (df : List RowRisco) (r : RowRisco) : Bool :=
  if r.CNPJ_Normalizado ∈ cnpjs_perdas df then false
  else r.Risco_Por_Dias_Sem_Coleta.getD false || quedaValida r

/-- One entry of `VARIACAO_QUEDA_FAIXAS` (external `config_churn`): the
optional `(min_val, max_val)` bounds; `none` models a selected label absent
from the table (`limites` falsy → skipped). -/
abbrev FaixaLimites : Type := Option (Option ℚ × Option ℚ)

/-- Condition of one `faixa` on an optional percentage value. -/
def condFaixa (lim : FaixaLimites) (q : Option ℚ) : Bool :=
  match lim with
  | none => false
  | some (min_val, max_val) =>
    match q with
    | none => false
    | some v =>
      (match min_val with | none => true | some a => decide (a ≤ v))
        && (match max_val with | none => true | some b => decide (v < b))

/-- `aplicar_filtro_variacao`: keep rows whose `Queda_Semanal_Pct` falls in
one of the selected ranges; with no range selected the dataframe passes
through unchanged. -/
def aplicar_filtro_variacao (df : List RowRisco) (faixas : List FaixaLimites) :
    List RowRisco :=
  if faixas = [] then df
  else df.filter (fun r => faixas.any (fun lim => condFaixa lim (quedaSemanalPct r)))

/-- `aplicar_filtro_variacao_generica` on one of the precomputed drop
columns (`usar_valor_absoluto=False` at every call site of the risk list). -/
def aplicar_filtro_variacao_generica (df : List RowRisco)
    (coluna : RowRisco → Option ℚ) (faixas : List FaixaLimites) :
    List RowRisco :=
  if faixas = [] then df
  else df.filter (fun r => faixas.any (fun lim => condFaixa lim (coluna r)))

/-- `df_risco_filtrado` of `renderizar_aba_fechamento_semanal`: the variação
filters applied to `df_risco_base`, then every CNPJ of `cnpjs_perdas`
excluded (`df_risco_filtrado[~....isin(cnpjs_perdas)]`, guarded by
`if cnpjs_perdas:`). -/
def lista_risco (df : List RowRisco) (fx f25 f24 fuf : List FaixaLimites) :
    List RowRisco :=
  let filtrado := aplicar_filtro_variacao df fx
  let filtrado := aplicar_filtro_variacao_generica filtrado RowRisco.Queda_Media_25_Pct f25
  let filtrado := aplicar_filtro_variacao_generica filtrado RowRisco.Queda_Media_24_Pct f24
  let filtrado := aplicar_filtro_variacao_generica filtrado RowRisco.Queda_Estado_Pct fuf
  if cnpjs_perdas df = [] then filtrado
  else filtrado.filter (fun r => r.CNPJ_Normalizado ∉ cnpjs_perdas df)

/-! ## Union-dedup invariant check (lines 3542-3571) -/

/-- `pd.concat(...).drop_duplicates(subset=['CNPJ_Normalizado'], keep='first')`
restricted to the key column: keep the first occurrence of each CNPJ. -/
def dropDuplicatesFirst : List String → List String
  | [] => []
  | a :: l => a :: dropDuplicatesFirst (l.filter (fun b => b ≠ a))
termination_by l => l.length
decreasing_by
  simp only [List.length_cons]
  exact Nat.lt_succ_of_le (List.length_filter_le _ _)

/-- Total monitored entity count hard-coded in the validation
(`if total_union > 5634`). -/
def TOTAL_BANCO : Nat := 5634

/-- `total_union`: size of the deduplicated union of the risk list and the
two loss tables (given through their CNPJ columns). -/
def total_union (risco recente antiga : List String) : Nat :=
  (dropDuplicatesFirst (risco ++ recente ++ antiga)).length

/-- The `st.error` alert flag of the aggregation invariant check. -/
def alerta_banco (risco recente antiga : List String) : Bool :=
  decide (TOTAL_BANCO < total_union risco recente antiga)

/-! ## Weekly evolution table backfill (lines 3590-3667, no-filter branch) -/

/-- One record of `semanas_indexadas`, keyed by `(iso_year, iso_week)`
(fields the claims read; the display label is the week number itself). -/
structure SemanaInfo where
  volume_total : ℚ
  volume_semana_anterior : ℚ
  fechada : Bool
  deriving Repr, DecidableEq

/-- Last calendar day of month `(y, m)` (`calendar.monthrange(...)[1]`). -/
def lastDayOfMonth (y m : Int) : Int :=
  (if m = 12 then daysFromCivil (y + 1) 1 1 else daysFromCivil y (m + 1) 1) - 1

/-- All calendar days of month `(y, m)` — the
`while dia_corrente <= ultimo_dia` loop. -/
def monthDays (y m : Int) : List Int :=
  (List.range (lastDayOfMonth y m + 1 - daysFromCivil y m 1).toNat).map
    (fun i : Nat => daysFromCivil y m 1 + (i : Int))

/-- `expected_keys`: the ISO `(year, week)` pairs hit by at least one
calendar day of month `(y, m)` (a Python `set`, here a deduplicated list). -/
def expected_keys (y m : Int) : List (Int × Int) :=
  ((monthDays y m).map isoYearWeek).dedup

/-- Date-derived closed flag of a backfilled week:
`fim_semana = datetime.fromisocalendar(iso_year, iso_week, 7)` and
`fechada := fim_semana.date() < datetime.now().date()`. -/
def fechadaBackfill (iso_year iso_week hojeDia : Int) : Bool :=
  decide (fromisocalendar iso_year iso_week 7 < hojeDia)

/-- The zeroed record inserted for an expected week absent from the data. -/
def semanaZerada (k : Int × Int) (hojeDia : Int) : SemanaInfo :=
  ⟨0, 0, fechadaBackfill k.1 k.2 hojeDia⟩

/-- The `for iso_year, iso_week in expected_keys` loop: insert a zeroed
record for every expected key missing from the indexed weeks. -/
def addExpected (hojeDia : Int) :
    List (Int × Int) → List ((Int × Int) × SemanaInfo) →
      List ((Int × Int) × SemanaInfo)
  | [], acc => acc
  | k :: ks, acc =>
    addExpected hojeDia ks
      (if (List.lookup k acc).isSome then acc
       else acc ++ [(k, semanaZerada k hojeDia)])

/-- The weekly evolution table of the no-week-filter branch
(`allowed_keys` empty): the weeks indexed from the source metadata / rows,
completed with every ISO week of the current month (`hoje = datetime.now()`
supplied as the civil date `(y, m, d)`). -/
def tabela_semanas (src : List ((Int × Int) × SemanaInfo)) (y m d : Int) :
    List ((Int × Int) × SemanaInfo) :=
  addExpected (daysFromCivil y m d) (expected_keys y m) src

-- Validation of the calendar against known dates.
example : daysFromCivil 2000 3 1 = 730485 := by decide
example : civilFromDays 730485 = (2000, 3, 1) := by decide
example : civilFromDays (daysFromCivil 2025 10 12) = (2025, 10, 12) := by decide
example : civilFromDays (daysFromCivil 2024 2 29) = (2024, 2, 29) := by decide
example : civilFromDays (daysFromCivil 1999 12 31) = (1999, 12, 31) := by decide
example : weekdayMon (daysFromCivil 2025 10 12) = 6 := by decide  -- a Sunday
example : weekdayMon (daysFromCivil 2025 10 6) = 0 := by decide   -- a Monday
example : isoYearWeek (daysFromCivil 2025 1 1) = (2025, 1) := by decide
example : isoYearWeek (daysFromCivil 2023 1 1) = (2022, 52) := by decide
example : isoYearWeek (daysFromCivil 2021 1 3) = (2020, 53) := by decide
example : isoYearWeek (daysFromCivil 2025 8 20) = (2025, 34) := by decide
example : fromisocalendar 2025 1 1 = daysFromCivil 2024 12 30 := by decide
example : fromisocalendar 2025 41 5 = daysFromCivil 2025 10 10 := by decide
example : fromisocalendar 2025 41 7 = daysFromCivil 2025 10 12 := by decide

/-! ## Helper lemmas about list primitives -/

theorem lookup_append {α β : Type} [BEq α] (k : α) (l₁ l₂ : List (α × β)) :
    List.lookup k (l₁ ++ l₂) = (List.lookup k l₁).or (List.lookup k l₂) := by
  induction l₁ with
  | nil => simp [List.lookup]
  | cons p l ih =>
    obtain ⟨a, b⟩ := p
    by_cases h : k == a <;> simp [List.lookup, h, ih]

theorem lookup_eq_none_of_keys_ne {β : Type} {k : Int} {l : List (Int × β)}
    (h : ∀ a ∈ l.map Prod.fst, a ≠ k) : List.lookup k l = none := by
  induction l with
  | nil => rfl
  | cons p l ih =>
    have hk : p.1 ≠ k := h p.1 (by simp)
    have hb : (k == p.1) = false := beq_eq_false_iff_ne.mpr (fun he => hk he.symm)
    simp only [List.lookup, hb]
    exact ih (fun a ha => h a (by simp [ha]))

theorem lookup_map_graph {β : Type} {idx : List Int} {k : Int} (f : Int → β)
    (hk : k ∈ idx) :
    List.lookup k (idx.map (fun d => (d, f d))) = some (f k) := by
  induction idx with
  | nil => cases hk
  | cons d idx ih =>
    by_cases h : k = d
    · subst h; simp [List.lookup]
    · have : (k == d) = false := by simpa using h
      have hk' : k ∈ idx := by
        rcases List.mem_cons.mp hk with h' | h'
        · exact absurd h' h
        · exact h'
      simp [List.lookup, this, ih hk']

theorem tailN_length {α : Type} (n : Nat) (l : List α) :
    (tailN n l).length = min n l.length := by
  simp only [tailN, List.length_drop]; omega

theorem tailN_append_singleton {α : Type} {n : Nat} (hn : n ≠ 0) (l : List α) (a : α) :
    tailN n (l ++ [a]) = tailN (n - 1) l ++ [a] := by
  simp only [tailN, List.length_append, List.length_singleton]
  rw [List.drop_append_eq_append_drop]
  have h1 : l.length + 1 - n ≤ l.length := by omega
  have h2 : l.length + 1 - n - l.length = 0 := by omega
  have h3 : l.length + 1 - n = l.length - (n - 1) := by omega
  rw [h2, h3, List.drop_zero]

theorem tailN_min_self {α : Type} (n : Nat) (l : List α) :
    tailN (min n l.length) l = tailN n l := by
  simp only [tailN]
  congr 1
  omega

theorem mem_of_mem_tailN {α : Type} {n : Nat} {l : List α} {a : α}
    (h : a ∈ tailN n l) : a ∈ l :=
  List.mem_of_mem_drop h

theorem foldl_min_le_init (l : List Int) (x : Int) : l.foldl min x ≤ x := by
  induction l generalizing x with
  | nil => exact le_rfl
  | cons b l ih =>
    simp only [List.foldl_cons]
    exact le_trans (ih (min x b)) (min_le_left x b)

theorem foldl_min_le_mem {l : List Int} {k : Int} (hk : k ∈ l) (x : Int) :
    l.foldl min x ≤ k := by
  induction l generalizing x with
  | nil => cases hk
  | cons b l ih =>
    simp only [List.foldl_cons]
    rcases List.mem_cons.mp hk with rfl | hk'
    · exact le_trans (foldl_min_le_init l (min x k)) (min_le_right x k)
    · exact ih hk' (min x b)

theorem min?_getD_le_of_mem {l : List Int} {k : Int} (hk : k ∈ l) (r : Int) :
    (l.min?).getD r ≤ k := by
  cases l with
  | nil => cases hk
  | cons a l =>
    rw [List.min?_cons']
    simp only [Option.getD_some]
    rcases List.mem_cons.mp hk with rfl | hk'
    · exact foldl_min_le_init l k
    · exact foldl_min_le_mem hk' a

/-! ## Helper lemmas about `bdateRange` and `serie_business_day` -/

namespace RiskEngine

theorem mem_bdateRange {a b d : Int} :
    d ∈ bdateRange a b ↔ a ≤ d ∧ d ≤ b ∧ isBusinessDay d = true := by
  simp only [bdateRange, List.mem_filter, List.mem_map, List.mem_range]
  constructor
  · rintro ⟨⟨i, hi, rfl⟩, hbd⟩
    refine ⟨by omega, ?_, hbd⟩
    omega
  · rintro ⟨h1, h2, hbd⟩
    refine ⟨⟨(d - a).toNat, ?_, by omega⟩, hbd⟩
    omega

theorem bdateRange_concat {a b : Int} (hab : a ≤ b) (hb : isBusinessDay b = true) :
    bdateRange a b = bdateRange a (b - 1) ++ [b] := by
  simp only [bdateRange]
  have hn : (b + 1 - a).toNat = (b - 1 + 1 - a).toNat + 1 := by omega
  rw [hn, List.range_succ, List.map_append, List.filter_append]
  congr 1
  have he : a + ((b - 1 + 1 - a).toNat : Int) = b := by omega
  simp only [List.map_cons, List.map_nil, he]
  simp [hb]

theorem bdateRange_ne_nil {a b : Int} (hab : a ≤ b) (hb : isBusinessDay b = true) :
    bdateRange a b ≠ [] := by
  have : b ∈ bdateRange a b := mem_bdateRange.mpr ⟨hab, le_rfl, hb⟩
  exact List.ne_nil_of_mem this

theorem zerosConsec_append (l : List ℚ) (x : ℚ) :
    zerosConsec (l ++ [x]) = if x = 0 then zerosConsec l + 1 else 0 := by
  by_cases hx : x = 0 <;>
    simp [zerosConsec, List.reverse_append, List.takeWhile, hx]

/-- When the reference date is a business day at or after the first recorded
date, `_serie_business_day` is exactly the graph of the sparse series over
`bdate_range(start, ref)` with 0 at absent days. -/
theorem serie_business_day_eq {s : List (Int × ℚ)} {ref : Int} (hne : s ≠ [])
    (hbd : isBusinessDay ref = true)
    (hstart : ((s.map Prod.fst).min?).getD ref ≤ ref) :
    serie_business_day s ref =
      (bdateRange (((s.map Prod.fst).min?).getD ref) ref).map
        (fun d => (d, (List.lookup d s).getD 0)) := by
  have hlt : ¬ ref < ((s.map Prod.fst).min?).getD ref := not_lt.mpr hstart
  have hrange : bdateRange (((s.map Prod.fst).min?).getD ref) ref ≠ [] :=
    bdateRange_ne_nil hstart hbd
  simp only [serie_business_day, if_neg hne, if_neg hlt, if_neg hrange]

/-- Appending the reference-date observation to a series with strictly
earlier keys: the reindexed series is a fixed front `D` (independent of the
reference-date value) followed by the reference-date pair. -/
theorem serie_business_day_snoc {pre : List (Int × ℚ)} {ref : Int}
    (hkeys : ∀ k ∈ pre.map Prod.fst, k < ref) (hbd : isBusinessDay ref = true) :
    ∃ D : List (Int × ℚ), (∀ k ∈ D.map Prod.fst, k < ref) ∧
      ∀ x : ℚ, serie_business_day (pre ++ [(ref, x)]) ref = D ++ [(ref, x)] := by
  have hK : ∀ x : ℚ, (pre ++ [(ref, x)]).map Prod.fst = pre.map Prod.fst ++ [ref] := by
    intro x; simp
  have hmemref : ∀ x : ℚ, ref ∈ (pre ++ [(ref, x)]).map Prod.fst := by
    intro x; rw [hK x]; simp
  have hstart : ∀ x : ℚ,
      (((pre ++ [(ref, x)]).map Prod.fst).min?).getD ref ≤ ref := by
    intro x; exact min?_getD_le_of_mem (hmemref x) ref
  have hstart_eq : ∀ x : ℚ,
      (((pre ++ [(ref, x)]).map Prod.fst).min?).getD ref
        = ((pre.map Prod.fst ++ [ref]).min?).getD ref := by
    intro x; rw [hK x]
  set start := ((pre.map Prod.fst ++ [ref]).min?).getD ref with hstartdef
  refine ⟨(bdateRange start (ref - 1)).map (fun d => (d, (List.lookup d pre).getD 0)),
    ?_, ?_⟩
  · intro k hk
    simp only [List.map_map] at hk
    have : k ∈ bdateRange start (ref - 1) := by
      have he : (Prod.fst ∘ fun d => (d, (List.lookup d pre).getD (0:ℚ))) = id := rfl
      rwa [he, List.map_id] at hk
    have := (mem_bdateRange.mp this).2.1
    omega
  · intro x
    have hne : pre ++ [(ref, x)] ≠ [] := by simp
    rw [serie_business_day_eq hne hbd (hstart x), hstart_eq x]
    have hsr : start ≤ ref := by
      have := hstart x; rwa [hstart_eq x] at this
    rw [bdateRange_concat hsr hbd, List.map_append]
    congr 1
    · apply List.map_congr_left
      intro d hd
      have hdlt : d < ref := by
        have := (mem_bdateRange.mp hd).2.1; omega
      have h2 : List.lookup d [(ref, x)] = none := by
        have : (d == ref) = false := beq_eq_false_iff_ne.mpr (by omega)
        simp [List.lookup, this]
      rw [lookup_append, h2, Option.or_none]
    · have h1 : List.lookup ref pre = none :=
        lookup_eq_none_of_keys_ne (fun a ha => ne_of_lt (hkeys a ha))
      have h2 : List.lookup ref [(ref, x)] = some x := by simp [List.lookup]
      simp [lookup_append, h1, h2]

/-- `_is_queda50` at a date strictly before the appended reference pair does
not see that pair. -/
theorem is_queda50_append_lt {D : List (Int × ℚ)} {ref k : Int} (x : ℚ)
    (hk : k < ref) :
    is_queda50 (D ++ [(ref, x)]) k = is_queda50 D k := by
  have h1 : (D ++ [(ref, x)]).filter (fun p => p.1 ≤ k)
      = D.filter (fun p => p.1 ≤ k) := by
    rw [List.filter_append]
    have : ¬ (ref ≤ k) := not_le.mpr hk
    simp [this]
  have h2 : List.lookup k (D ++ [(ref, x)]) = List.lookup k D := by
    have hne : (k == ref) = false := beq_eq_false_iff_ne.mpr (ne_of_lt hk)
    rw [lookup_append]
    simp [List.lookup, hne]
  unfold is_queda50
  rw [h1, h2]

/-- `_is_queda50` at the reference date itself, in terms of the sum `A` and
count of the up-to-6 values preceding it inside the MM7 window. -/
theorem is_queda50_append_self {D : List (Int × ℚ)} {ref : Int} (x : ℚ)
    (hD : ∀ k ∈ D.map Prod.fst, k < ref) :
    is_queda50 (D ++ [(ref, x)]) ref =
      (if 0 < ((tailN 6 (D.map Prod.snd)).sum + x)
            / (((tailN 6 (D.map Prod.snd)).length : ℚ) + 1)
       then decide (x < 0.5 * (((tailN 6 (D.map Prod.snd)).sum + x)
            / (((tailN 6 (D.map Prod.snd)).length : ℚ) + 1)))
       else false) := by
  have h1 : (D ++ [(ref, x)]).filter (fun p => p.1 ≤ ref) = D ++ [(ref, x)] := by
    rw [List.filter_eq_self]
    intro p hp
    rcases List.mem_append.mp hp with h | h
    · exact decide_eq_true (le_of_lt (hD p.1 (List.mem_map.mpr ⟨p, h, rfl⟩)))
    · simp at h; subst h; exact decide_eq_true le_rfl
  have h2 : List.lookup ref (D ++ [(ref, x)]) = some x := by
    have hnone : List.lookup ref D = none :=
      lookup_eq_none_of_keys_ne (fun a ha => ne_of_lt (hD a ha))
    rw [lookup_append, hnone]
    simp [List.lookup]
  have h3 : tailN 7 ((D ++ [(ref, x)]).map Prod.snd)
      = tailN 6 (D.map Prod.snd) ++ [x] := by
    rw [List.map_append]
    simpa using tailN_append_singleton (by omega) (D.map Prod.snd) x
  unfold is_queda50
  rw [h1, h3, h2]
  simp only [mean, List.sum_append, List.length_append, List.sum_singleton,
    List.length_singleton, Option.getD_some]
  push_cast
  rfl

/-- Unfolding `rolling_means` on a series ending at the reference pair. -/
theorem rolling_means_snoc {D : List (Int × ℚ)} {ref : Int} (x : ℚ)
    (hD : ∀ k ∈ D.map Prod.fst, k < ref) :
    (rolling_means (D ++ [(ref, x)]) ref).HOJE = x ∧
    (rolling_means (D ++ [(ref, x)]) ref).zeros_consec
      = zerosConsec (D.map Prod.snd ++ [x]) ∧
    (rolling_means (D ++ [(ref, x)]) ref).quedas50_consec
      = (tailN 2 D).countP (fun p => is_queda50 D p.1)
        + (if is_queda50 (D ++ [(ref, x)]) ref = true then 1 else 0) := by
  have hne : D ++ [(ref, x)] ≠ [] := by simp
  have hlook : List.lookup ref (D ++ [(ref, x)]) = some x := by
    have hnone : List.lookup ref D = none :=
      lookup_eq_none_of_keys_ne (fun a ha => ne_of_lt (hD a ha))
    rw [lookup_append, hnone]
    simp [List.lookup]
  have hfilter : (D ++ [(ref, x)]).filter (fun p => p.1 ≤ ref) = D ++ [(ref, x)] := by
    rw [List.filter_eq_self]
    intro p hp
    rcases List.mem_append.mp hp with h | h
    · exact decide_eq_true (le_of_lt (hD p.1 (List.mem_map.mpr ⟨p, h, rfl⟩)))
    · simp at h; subst h; exact decide_eq_true le_rfl
  have htail3 : tailN 3 (D ++ [(ref, x)]) = tailN 2 D ++ [(ref, x)] := by
    simpa using tailN_append_singleton (by omega) D (ref, x)
  have hcount : (tailN 2 D).countP (fun p => is_queda50 (D ++ [(ref, x)]) p.1)
      = (tailN 2 D).countP (fun p => is_queda50 D p.1) := by
    apply List.countP_congr
    intro p hp
    have hmem : p ∈ D := mem_of_mem_tailN hp
    have : p.1 < ref := hD p.1 (List.mem_map.mpr ⟨p, hmem, rfl⟩)
    rw [is_queda50_append_lt x this]
  simp only [rolling_means, if_neg hne, hlook, hfilter, List.map_append,
    List.map_cons, List.map_nil, htail3, List.countP_append, hcount]
  refine ⟨?_, ?_, ?_⟩
  · trivial
  · trivial
  · simp [List.countP_cons]

/-- A nonempty sparse series reindexes to a nonempty business-day series. -/
theorem serie_business_day_ne_nil {s : List (Int × ℚ)} (ref : Int) (h : s ≠ []) :
    serie_business_day s ref ≠ [] := by
  simp only [serie_business_day, if_neg h]
  have hgen : ∀ (idx : List Int) (r : Int) (f : Int → Int × ℚ),
      ((if idx = [] then [r] else idx).map f) ≠ [] := by
    intro idx r f
    by_cases hidx : idx = []
    · simp [hidx]
    · simp [hidx]
  exact hgen _ _ _

/-- The drop-50% test at the reference date is antitone in today's value:
if it fires at the larger value `t'` it also fires at the smaller `t ≥ 0`
(`A` is the sum and `kk ≥ 1` the count of the MM7 window including today). -/
theorem queda_cond_mono {A kk t t' : ℚ} (hk : 1 ≤ kk) (h0 : 0 ≤ t) (ht : t ≤ t')
    (h : (if 0 < (A + t') / kk then decide (t' < 0.5 * ((A + t') / kk)) else false)
          = true) :
    (if 0 < (A + t) / kk then decide (t < 0.5 * ((A + t) / kk)) else false)
      = true := by
  have hkpos : (0:ℚ) < kk := lt_of_lt_of_le one_pos hk
  have hkne : kk ≠ 0 := ne_of_gt hkpos
  by_cases hp : 0 < (A + t') / kk
  · rw [if_pos hp] at h
    have h2 : t' < 0.5 * ((A + t') / kk) := of_decide_eq_true h
    have h3 : t' * kk < 0.5 * (A + t') := by
      have hmul := mul_lt_mul_of_pos_right h2 hkpos
      rwa [mul_assoc, div_mul_cancel₀ _ hkne] at hmul
    have hA : t' * (2 * kk - 1) < A := by nlinarith
    have hmono : t * (2 * kk - 1) ≤ t' * (2 * kk - 1) :=
      mul_le_mul_of_nonneg_right ht (by linarith)
    have hA2 : t * (2 * kk - 1) < A := lt_of_le_of_lt hmono hA
    have hApos : 0 < A := by
      have := mul_nonneg (le_trans h0 ht) (show (0:ℚ) ≤ 2 * kk - 1 by linarith)
      linarith
    have hAtpos : 0 < A + t := by linarith
    rw [if_pos (div_pos hAtpos hkpos)]
    apply decide_eq_true
    have h4 : t * kk < 0.5 * (A + t) := by nlinarith
    have h5 : t < (0.5 * (A + t)) / kk := (lt_div_iff₀ hkpos).mpr h4
    rwa [mul_div_assoc] at h5
  · rw [if_neg hp] at h
    exact absurd h (by simp)

/-- `maior_reducao` is antitone in today's value (contexts fixed). -/
theorem maiorReducao_anti {t t' : ℚ} (ht : t ≤ t') (ctx : List ℚ) :
    maiorReducao t' ctx ≤ maiorReducao t ctx := by
  unfold maiorReducao reducoes
  induction ctx with
  | nil => simp
  | cons mm ctx ih =>
    simp only [List.map_cons, List.foldr_cons]
    apply max_le_max _ ih
    apply max_le_max le_rfl
    by_cases hmm : 0 < mm
    · simp only [if_pos hmm]
      have hdiv : t / mm ≤ t' / mm := (div_le_div_iff_of_pos_right hmm).mpr ht
      linarith
    · simp [hmm]

/-- A strictly positive today's value can never trigger `reducao_zero_absoluto`. -/
theorem reducaoZeroAbsoluto_of_ne {hoje : ℚ} (ctx : List ℚ) (h : hoje ≠ 0) :
    reducaoZeroAbsoluto hoje ctx = false := by
  simp [reducaoZeroAbsoluto, h]

/-- The severity chain yields `Crítico` exactly on a hard trigger. -/
theorem nivelRisco_eq_critico_iff (a : Bool) (mr : ℚ) (z q : Nat) (med hi : ℚ) :
    nivelRisco a mr z q med hi = .Critico ↔
      (a = true ∨ 1 ≤ mr ∨ 7 ≤ z ∨ 3 ≤ q) := by
  unfold nivelRisco
  split_ifs with h1 h2 h3 h4 <;> simp_all

theorem nivelRisco_level_ge_alto {a : Bool} {mr : ℚ} {z q : Nat} {med hi : ℚ}
    (h : hi ≤ mr) : 3 ≤ (nivelRisco a mr z q med hi).level := by
  unfold nivelRisco
  split_ifs <;> simp_all [Risco.level]

theorem nivelRisco_level_ge_moderado {a : Bool} {mr : ℚ} {z q : Nat} {med hi : ℚ}
    (h : med ≤ mr) : 2 ≤ (nivelRisco a mr z q med hi).level := by
  unfold nivelRisco
  split_ifs <;> simp_all [Risco.level]

theorem nivelRisco_level_ge_atencao {a : Bool} {mr : ℚ} {z q : Nat} {med hi : ℚ}
    (h : 0 < mr) : 1 ≤ (nivelRisco a mr z q med hi).level := by
  unfold nivelRisco
  split_ifs <;> simp_all [Risco.level]

/-- Pointwise domination of the trigger quantities makes the severity level
of the chain antitone. -/
theorem nivelRisco_level_anti {a a' : Bool} {mr mr' : ℚ} {z z' q q' : Nat}
    {med hi : ℚ}
    (ha : a' = true → a = true) (hm : mr' ≤ mr) (hz : z' ≤ z) (hq : q' ≤ q) :
    (nivelRisco a' mr' z' q' med hi).level ≤ (nivelRisco a mr z q med hi).level := by
  by_cases h1' : a' = true ∨ 1 ≤ mr' ∨ 7 ≤ z' ∨ 3 ≤ q'
  · have h1 : a = true ∨ 1 ≤ mr ∨ 7 ≤ z ∨ 3 ≤ q := by
      rcases h1' with h | h | h | h
      · exact Or.inl (ha h)
      · exact Or.inr (Or.inl (le_trans h hm))
      · exact Or.inr (Or.inr (Or.inl (le_trans h hz)))
      · exact Or.inr (Or.inr (Or.inr (le_trans h hq)))
    rw [(nivelRisco_eq_critico_iff a' mr' z' q' med hi).mpr h1',
      (nivelRisco_eq_critico_iff a mr z q med hi).mpr h1]
  · have e1 : nivelRisco a' mr' z' q' med hi =
        (if hi ≤ mr' then .Alto else if med ≤ mr' then .Moderado
         else if 0 < mr' then .Atencao else .Normal) := by
      unfold nivelRisco
      rw [if_neg h1']
    rw [e1]
    by_cases h2' : hi ≤ mr'
    · rw [if_pos h2']
      exact nivelRisco_level_ge_alto (le_trans h2' hm)
    · rw [if_neg h2']
      by_cases h3' : med ≤ mr'
      · rw [if_pos h3']
        exact nivelRisco_level_ge_moderado (le_trans h3' hm)
      · rw [if_neg h3']
        by_cases h4' : 0 < mr'
        · rw [if_pos h4']
          exact nivelRisco_level_ge_atencao (lt_of_lt_of_le h4' hm)
        · rw [if_neg h4']
          exact Nat.zero_le _

/-- `reducao_zero_absoluto` holds exactly when some present context MM7 is
strictly positive and today's value is 0. -/
theorem reducaoZeroAbsoluto_iff (hoje : ℚ) (br uf cid : Option ℚ) :
    reducaoZeroAbsoluto hoje (contextoMM br uf cid) = true ↔
      (∃ c ∈ [br, uf, cid].filterMap id, 0 < c) ∧ hoje = 0 := by
  simp only [reducaoZeroAbsoluto, contextoMM, List.any_eq_true, List.mem_filter,
    Bool.and_eq_true, decide_eq_true_eq]
  constructor
  · rintro ⟨mm, ⟨hmem, _⟩, hpos, h0⟩
    exact ⟨⟨mm, hmem, hpos⟩, h0⟩
  · rintro ⟨⟨c, hc, hp⟩, h0⟩
    exact ⟨c, ⟨hc, by simpa using hp⟩, hp, h0⟩

/-- With no present positive context, `contexto_mm` is empty. -/
theorem contextoMM_eq_nil {br uf cid : Option ℚ}
    (hbr : ∀ x, br = some x → x ≤ 0) (huf : ∀ x, uf = some x → x ≤ 0)
    (hcid : ∀ x, cid = some x → x ≤ 0) :
    contextoMM br uf cid = [] := by
  unfold contextoMM
  rw [List.filter_eq_nil_iff]
  intro a ha
  simp only [List.mem_filterMap, List.mem_cons, List.mem_singleton, id] at ha
  obtain ⟨o, ho, hoa⟩ := ha
  subst hoa
  rcases ho with rfl | rfl | (rfl | h)
  · simpa using hbr a rfl
  · simpa using huf a rfl
  · simpa using hcid a rfl
  · cases h

end RiskEngine

section Claims

open RiskEngine

/-- C2: for every row with a non-empty daily series, `classificar` yields
'⚫ Crítico' iff a hard trigger holds — some positive present context MM7
with today's value 0, or maximal context reduction ≥ 1, or trailing zero
streak ≥ 7, or drop-50% count among the last 3 observations ≥ 3; the
right-hand side does not mention `limiar_alto`, so crossing the High
threshold alone never yields Crítico. -/
theorem C2_critico_iff_gatilho_duro (sparse : List (Int × ℚ)) (ref : Int)
    (br uf cid : Option ℚ) (limiar_medio limiar_alto : ℚ) (h : sparse ≠ []) :
    classificar sparse ref br uf cid limiar_medio limiar_alto
        = some Risco.Critico ↔
      (((∃ c ∈ [br, uf, cid].filterMap id, 0 < c)
          ∧ (rolling_means (serie_business_day sparse ref) ref).HOJE = 0)
        ∨ 1 ≤ maiorReducao (rolling_means (serie_business_day sparse ref) ref).HOJE
            (contextoMM br uf cid)
        ∨ 7 ≤ (rolling_means (serie_business_day sparse ref) ref).zeros_consec
        ∨ 3 ≤ (rolling_means (serie_business_day sparse ref) ref).quedas50_consec) := by
  have hsne : serie_business_day sparse ref ≠ [] := serie_business_day_ne_nil ref h
  simp only [classificar, if_neg hsne, Option.some.injEq]
  unfold classificarRisco
  rw [nivelRisco_eq_critico_iff, reducaoZeroAbsoluto_iff]

/-- C2 witness: a concrete lab with five business days of data, today's
value 0 against a positive national MM7 — classified Crítico, matching the
hard-trigger disjunction. -/
theorem C2_critico_iff_gatilho_duro_witness :
    ([(739835, (10:ℚ)), (739839, 0)] ≠ ([] : List (Int × ℚ))) ∧
    (classificar [(739835, (10:ℚ)), (739839, 0)] 739839 (some 10) none none
        (3/10) (1/2) = some Risco.Critico ↔
      (((∃ c ∈ [some (10:ℚ), none, none].filterMap id, 0 < c)
          ∧ (rolling_means (serie_business_day [(739835, (10:ℚ)), (739839, 0)]
              739839) 739839).HOJE = 0)
        ∨ 1 ≤ maiorReducao
            (rolling_means (serie_business_day [(739835, (10:ℚ)), (739839, 0)]
              739839) 739839).HOJE
            (contextoMM (some 10) none none)
        ∨ 7 ≤ (rolling_means (serie_business_day [(739835, (10:ℚ)), (739839, 0)]
              739839) 739839).zeros_consec
        ∨ 3 ≤ (rolling_means (serie_business_day [(739835, (10:ℚ)), (739839, 0)]
              739839) 739839).quedas50_consec)) :=
  ⟨by decide, C2_critico_iff_gatilho_duro _ 739839 _ _ _ _ _ (by decide)⟩

/-- C3: severity is monotonic non-increasing in today's value — raising
only the reference-date observation of the daily series (contexts and
thresholds fixed) never increases the severity level of `classificar`. -/
theorem C3_monotonicidade_hoje
    (pre : List (Int × ℚ)) (ref : Int) (t t' : ℚ) (br uf cid : Option ℚ)
    (limiar_medio limiar_alto : ℚ)
    (hkeys : ∀ k ∈ pre.map Prod.fst, k < ref) (hbd : isBusinessDay ref = true)
    (h0 : 0 ≤ t) (ht : t ≤ t') :
    nivelOpt (classificar (pre ++ [(ref, t')]) ref br uf cid
        limiar_medio limiar_alto)
      ≤ nivelOpt (classificar (pre ++ [(ref, t)]) ref br uf cid
        limiar_medio limiar_alto) := by
  obtain ⟨D, hD, hser⟩ := serie_business_day_snoc hkeys hbd
  have hne : ∀ x : ℚ, D ++ [(ref, x)] ≠ [] := by intro x; simp
  have hcl : ∀ x : ℚ,
      classificar (pre ++ [(ref, x)]) ref br uf cid limiar_medio limiar_alto
        = some (classificarRisco (rolling_means (D ++ [(ref, x)]) ref)
            br uf cid limiar_medio limiar_alto) := by
    intro x
    simp only [classificar, hser x, if_neg (hne x)]
  rw [hcl t, hcl t']
  obtain ⟨hH', hz', hq'⟩ := rolling_means_snoc t' hD
  obtain ⟨hH, _, hq⟩ := rolling_means_snoc t hD
  rcases eq_or_lt_of_le ht with rfl | hlt
  · exact le_rfl
  · have ht'pos : 0 < t' := lt_of_le_of_lt h0 hlt
    have ht'ne : t' ≠ 0 := ne_of_gt ht'pos
    simp only [nivelOpt, Option.map_some', Option.getD_some]
    unfold classificarRisco
    rw [hH, hH']
    apply nivelRisco_level_anti
    · intro habs
      rw [reducaoZeroAbsoluto_of_ne _ ht'ne] at habs
      exact absurd habs (by simp)
    · exact maiorReducao_anti (le_of_lt hlt) _
    · rw [hz', zerosConsec_append, if_neg ht'ne]
      exact Nat.zero_le _
    · rw [hq, hq']
      apply Nat.add_le_add le_rfl
      by_cases hI : is_queda50 (D ++ [(ref, t')]) ref = true
      · have hI2 : is_queda50 (D ++ [(ref, t)]) ref = true := by
          rw [is_queda50_append_self t' hD] at hI
          rw [is_queda50_append_self t hD]
          have hk : (1:ℚ) ≤ ((tailN 6 (D.map Prod.snd)).length : ℚ) + 1 := by
            have : (0:ℚ) ≤ ((tailN 6 (D.map Prod.snd)).length : ℚ) :=
              Nat.cast_nonneg _
            linarith
          exact queda_cond_mono hk h0 ht hI
        rw [if_pos hI, if_pos hI2]
      · rw [if_neg hI]
        exact Nat.zero_le _

/-- C3 witness: one lab, Monday=5 then Friday value raised from 0 to 5 with
a fixed national context 10 — severity drops from Crítico (level 4) to
Moderado (level 2). -/
theorem C3_monotonicidade_hoje_witness :
    (∀ k ∈ [((739835:Int), (5:ℚ))].map Prod.fst, k < 739839) ∧
    isBusinessDay 739839 = true ∧ ((0:ℚ) ≤ 0) ∧ ((0:ℚ) ≤ 5) ∧
    nivelOpt (classificar ([(739835, (5:ℚ))] ++ [(739839, 5)]) 739839
        (some 10) none none (3/10) (1/2))
      ≤ nivelOpt (classificar ([(739835, (5:ℚ))] ++ [(739839, 0)]) 739839
        (some 10) none none (3/10) (1/2)) :=
  ⟨by decide, by decide, by decide, by decide,
    C3_monotonicidade_hoje [(739835, (5:ℚ))] 739839 0 5 (some 10) none none
      (3/10) (1/2) (by decide) (by decide) (by decide) (by decide)⟩

/-- C4: if every context MM7 cell is missing or ≤ 0, the maximal reduction
is 0 and `reducao_zero_absoluto` is false, so with positive Moderate/High
thresholds the severity is Crítico exactly on the streak triggers and
Normal otherwise. -/
theorem C4_contexto_ausente (sparse : List (Int × ℚ)) (ref : Int)
    (br uf cid : Option ℚ) (limiar_medio limiar_alto : ℚ) (h : sparse ≠ [])
    (hbr : ∀ x, br = some x → x ≤ 0) (huf : ∀ x, uf = some x → x ≤ 0)
    (hcid : ∀ x, cid = some x → x ≤ 0)
    (hmed : 0 < limiar_medio) (halto : 0 < limiar_alto) :
    maiorReducao (rolling_means (serie_business_day sparse ref) ref).HOJE
        (contextoMM br uf cid) = 0 ∧
    reducaoZeroAbsoluto (rolling_means (serie_business_day sparse ref) ref).HOJE
        (contextoMM br uf cid) = false ∧
    classificar sparse ref br uf cid limiar_medio limiar_alto =
      some (if 7 ≤ (rolling_means (serie_business_day sparse ref) ref).zeros_consec
              ∨ 3 ≤ (rolling_means (serie_business_day sparse ref) ref).quedas50_consec
            then Risco.Critico else Risco.Normal) := by
  have hctx := contextoMM_eq_nil hbr huf hcid
  refine ⟨by rw [hctx]; rfl, by rw [hctx]; rfl, ?_⟩
  have hsne : serie_business_day sparse ref ≠ [] := serie_business_day_ne_nil ref h
  simp only [classificar, if_neg hsne, Option.some.injEq]
  unfold classificarRisco
  rw [hctx]
  unfold nivelRisco
  have hfalse : (reducaoZeroAbsoluto
      (rolling_means (serie_business_day sparse ref) ref).HOJE [] = true)
      = False := by simp [reducaoZeroAbsoluto]
  have hmr : maiorReducao
      (rolling_means (serie_business_day sparse ref) ref).HOJE [] = 0 := rfl
  by_cases hzq : 7 ≤ (rolling_means (serie_business_day sparse ref) ref).zeros_consec
      ∨ 3 ≤ (rolling_means (serie_business_day sparse ref) ref).quedas50_consec
  · rw [if_pos (by rw [hfalse, hmr]; tauto), if_pos hzq]
  · rw [if_neg (by rw [hfalse, hmr]; push_neg; push_neg at hzq; exact ⟨by simp,
      by norm_num, hzq.1, hzq.2⟩), if_neg hzq, hmr,
      if_neg (not_le.mpr halto), if_neg (not_le.mpr hmed), if_neg (lt_irrefl 0)]

/-- C4 witness: a lab with data but all three context cells absent / zero,
thresholds 0.3/0.5 — no streak trigger fires, result Normal. -/
theorem C4_contexto_ausente_witness :
    ([(739835, (10:ℚ)), (739839, 4)] ≠ ([] : List (Int × ℚ))) ∧
    (∀ x : ℚ, (none : Option ℚ) = some x → x ≤ 0) ∧
    (∀ x : ℚ, (some (0:ℚ)) = some x → x ≤ 0) ∧
    ((0:ℚ) < 3/10) ∧ ((0:ℚ) < 1/2) ∧
    (maiorReducao (rolling_means (serie_business_day
        [(739835, (10:ℚ)), (739839, 4)] 739839) 739839).HOJE
        (contextoMM none (some 0) none) = 0 ∧
     reducaoZeroAbsoluto (rolling_means (serie_business_day
        [(739835, (10:ℚ)), (739839, 4)] 739839) 739839).HOJE
        (contextoMM none (some 0) none) = false ∧
     classificar [(739835, (10:ℚ)), (739839, 4)] 739839 none (some 0) none
        (3/10) (1/2) =
      some (if 7 ≤ (rolling_means (serie_business_day
              [(739835, (10:ℚ)), (739839, 4)] 739839) 739839).zeros_consec
              ∨ 3 ≤ (rolling_means (serie_business_day
              [(739835, (10:ℚ)), (739839, 4)] 739839) 739839).quedas50_consec
            then Risco.Critico else Risco.Normal)) :=
  ⟨by decide, by simp,
    by intro x hx; injection hx with hx; subst hx; exact le_rfl,
    by norm_num, by norm_num,
    C4_contexto_ausente _ 739839 none (some 0) none (3/10) (1/2) (by decide)
      (by simp)
      (by intro x hx; injection hx with hx; subst hx; exact le_rfl)
      (by simp) (by norm_num) (by norm_num)⟩

/-- C5: for a non-empty sparse series and a reference business day not
before the first recorded date, the MM7 of `_rolling_means` on the
reindexed series equals the arithmetic mean of the `min(7, n)` most recent
business-day values (`n` = number of business days of the reindexed
series, absent days counted as 0), and the reindexed series ends exactly
at the reference date — no synthetic history beyond the partial window. -/
theorem C5_mm7_media_janela (s : List (Int × ℚ)) (ref : Int) (hne : s ≠ [])
    (hbd : isBusinessDay ref = true)
    (hstart : ((s.map Prod.fst).min?).getD ref ≤ ref) :
    let start := ((s.map Prod.fst).min?).getD ref
    let dense := (bdateRange start ref).map (fun d => ((List.lookup d s).getD 0 : ℚ))
    let n := dense.length
    (rolling_means (serie_business_day s ref) ref).MM7
        = (tailN (min 7 n) dense).sum / ((min 7 n : Nat) : ℚ) ∧
    ((serie_business_day s ref).map Prod.fst).getLast? = some ref := by
  intro start dense n
  have hser := serie_business_day_eq hne hbd hstart
  have hmemref : ref ∈ bdateRange start ref :=
    mem_bdateRange.mpr ⟨hstart, le_rfl, hbd⟩
  have hkeys : ((bdateRange start ref).map
      (fun d => (d, (List.lookup d s).getD (0:ℚ)))).map Prod.fst
      = bdateRange start ref := by
    rw [List.map_map]
    exact List.map_id _
  constructor
  · rw [hser]
    have hne2 : (bdateRange start ref).map
        (fun d => (d, (List.lookup d s).getD (0:ℚ))) ≠ [] := by
      intro hc
      exact bdateRange_ne_nil hstart hbd (List.map_eq_nil_iff.mp hc)
    have hlook : List.lookup ref ((bdateRange start ref).map
        (fun d => (d, (List.lookup d s).getD (0:ℚ))))
        = some ((List.lookup ref s).getD 0) :=
      lookup_map_graph _ hmemref
    have hfil : ((bdateRange start ref).map
        (fun d => (d, (List.lookup d s).getD (0:ℚ)))).filter (fun p => p.1 ≤ ref)
        = (bdateRange start ref).map (fun d => (d, (List.lookup d s).getD (0:ℚ))) := by
      rw [List.filter_eq_self]
      intro p hp
      obtain ⟨dd, hdd, rfl⟩ := List.mem_map.mp hp
      exact decide_eq_true (mem_bdateRange.mp hdd).2.1
    have hvals : ((bdateRange start ref).map
        (fun d => (d, (List.lookup d s).getD (0:ℚ)))).map Prod.snd = dense := by
      rw [List.map_map]
      rfl
    simp only [rolling_means, if_neg hne2, hlook, hfil, hvals]
    show mean (tailN 7 dense) = (tailN (min 7 n) dense).sum / ((min 7 n : Nat) : ℚ)
    rw [tailN_min_self 7 dense, mean, tailN_length]
  · rw [hser, hkeys, bdateRange_concat hstart hbd]
    exact List.getLast?_concat _

/-- C5 witness: a sparse series (Monday 10, Wednesday 4) at reference
Friday — 5 business days reindexed, MM7 = (10+0+4+0+0)/5. -/
theorem C5_mm7_media_janela_witness :
    ([(739835, (10:ℚ)), (739837, 4)] ≠ ([] : List (Int × ℚ))) ∧
    isBusinessDay 739839 = true ∧
    ((([(739835, (10:ℚ)), (739837, 4)].map Prod.fst).min?).getD 739839 ≤ 739839) ∧
    ((rolling_means (serie_business_day [(739835, (10:ℚ)), (739837, 4)] 739839)
        739839).MM7
      = (tailN (min 7 ((bdateRange
            ((([(739835, (10:ℚ)), (739837, 4)].map Prod.fst).min?).getD 739839)
            739839).map
            (fun d => ((List.lookup d [(739835, (10:ℚ)), (739837, 4)]).getD 0 : ℚ))).length)
          ((bdateRange
            ((([(739835, (10:ℚ)), (739837, 4)].map Prod.fst).min?).getD 739839)
            739839).map
            (fun d => ((List.lookup d [(739835, (10:ℚ)), (739837, 4)]).getD 0 : ℚ)))).sum
        / ((min 7 ((bdateRange
            ((([(739835, (10:ℚ)), (739837, 4)].map Prod.fst).min?).getD 739839)
            739839).map
            (fun d => ((List.lookup d [(739835, (10:ℚ)), (739837, 4)]).getD 0 : ℚ))).length
            : Nat) : ℚ) ∧
      ((serie_business_day [(739835, (10:ℚ)), (739837, 4)] 739839).map
        Prod.fst).getLast? = some 739839) :=
  ⟨by decide, by decide, by decide,
    C5_mm7_media_janela [(739835, (10:ℚ)), (739837, 4)] 739839
      (by decide) (by decide) (by decide)⟩

/-- The descending sort used by `sorted(valores, reverse=True)` splits any
value list into a top block of size `min 3 |l|` dominating the rest. -/
theorem top3_caracterizacao (l : List ℚ) :
    ∃ escolhidos resto : List ℚ,
      l.Perm (escolhidos ++ resto) ∧
      escolhidos.length = min 3 l.length ∧
      (∀ b ∈ resto, ∀ a ∈ escolhidos, b ≤ a) ∧
      (if l = [] then (0:ℚ)
       else ((l.insertionSort (fun a b => b ≤ a)).take 3).sum
          / (((l.insertionSort (fun a b => b ≤ a)).take 3).length : ℚ))
        = (if escolhidos = [] then 0
           else escolhidos.sum / (escolhidos.length : ℚ)) := by
  haveI hTot : IsTotal ℚ (fun a b => b ≤ a) := ⟨fun a b => le_total b a⟩
  haveI hTrans : IsTrans ℚ (fun a b => b ≤ a) := ⟨fun _ _ _ h1 h2 => le_trans h2 h1⟩
  have hlen : (l.insertionSort (fun a b => b ≤ a)).length = l.length :=
    (List.perm_insertionSort _ _).length_eq
  refine ⟨(l.insertionSort (fun a b => b ≤ a)).take 3,
    (l.insertionSort (fun a b => b ≤ a)).drop 3, ?_, ?_, ?_, ?_⟩
  · rw [List.take_append_drop]
    exact (List.perm_insertionSort _ _).symm
  · rw [List.length_take, hlen]
  · intro b hb a ha
    exact List.Sorted.rel_of_mem_take_of_mem_drop
      (List.sorted_insertionSort (fun a b : ℚ => b ≤ a) l) ha hb
  · by_cases hl : l = []
    · subst hl
      simp [List.insertionSort]
    · rw [if_neg hl, if_neg ?hne]
      case hne =>
        intro hc
        have h0 : ((l.insertionSort (fun a b => b ≤ a)).take 3).length = 0 := by
          rw [hc]; rfl
        rw [List.length_take, hlen] at h0
        have hl0 : l.length = 0 := by omega
        exact hl (List.length_eq_zero.mp hl0)

/-- C8: the monthly baseline is the mean of the top `min(3, #positives)`
strictly positive month values (0 when none exist): the positives split
into a chosen block of that size dominating the rest, whose mean is the
result; and for exactly the three nonzero months 100/80/60 the baseline
is 80. -/
theorem C8_baseline_top3 :
    (∀ valores_meses : List (Option ℚ),
      ∃ escolhidos resto : List ℚ,
        ((valores_meses.filterMap id).filter (fun v => 0 < v)).Perm
            (escolhidos ++ resto) ∧
        escolhidos.length
          = min 3 ((valores_meses.filterMap id).filter (fun v => 0 < v)).length ∧
        (∀ b ∈ resto, ∀ a ∈ escolhidos, b ≤ a) ∧
        calcular_media_top3 valores_meses
          = (if escolhidos = [] then 0
             else escolhidos.sum / (escolhidos.length : ℚ))) ∧
    calcular_media_top3 [some 100, some 80, some 60] = 80 := by
  constructor
  · intro vm
    obtain ⟨esc, resto, hperm, hlen, hrel, heq⟩ :=
      top3_caracterizacao ((vm.filterMap id).filter (fun v => 0 < v))
    exact ⟨esc, resto, hperm, hlen, hrel, by rw [← heq]; rfl⟩
  · norm_num [calcular_media_top3, List.insertionSort, List.orderedInsert]

/-- `drop_duplicates(keep='first')` on the key column emits exactly one row
per distinct key: its length is the number of distinct CNPJs. -/
theorem dropDuplicatesFirst_length (l : List String) :
    (dropDuplicatesFirst l).length = l.toFinset.card := by
  suffices h : ∀ (n : Nat) (l : List String), l.length = n →
      (dropDuplicatesFirst l).length = l.toFinset.card from h l.length l rfl
  intro n
  induction n using Nat.strong_induction_on with
  | _ n ih =>
    intro l hn
    cases l with
    | nil => simp [dropDuplicatesFirst]
    | cons a t =>
      rw [dropDuplicatesFirst]
      simp only [List.length_cons] at hn
      have hlt : (t.filter (fun b => b ≠ a)).length < n := by
        have := List.length_filter_le (fun b => decide (b ≠ a)) t
        omega
      have hrec := ih _ hlt (t.filter (fun b => b ≠ a)) rfl
      rw [List.length_cons, hrec]
      have hfin : (t.filter (fun b => b ≠ a)).toFinset = t.toFinset.erase a := by
        ext x
        simp only [List.mem_toFinset, List.mem_filter, Finset.mem_erase,
          decide_eq_true_eq]
        tauto
      rw [hfin, List.toFinset_cons]
      by_cases hmem : a ∈ t.toFinset
      · rw [Finset.insert_eq_self.mpr hmem]
        exact Finset.card_erase_add_one hmem
      · rw [Finset.card_insert_of_not_mem hmem, Finset.erase_eq_of_not_mem hmem]

/-- C9: the aggregation invariant check counts the full deduplicated-by-CNPJ
union of the risk list and the two loss tables — exactly the number of
distinct entity ids, never truncated — and raises the alert precisely when
that count exceeds the monitored total (5634). -/
theorem C9_uniao_dedup_alerta (risco recente antiga : List String) :
    total_union risco recente antiga
        = ((risco ++ recente ++ antiga).toFinset).card ∧
    (alerta_banco risco recente antiga = true ↔
      TOTAL_BANCO < total_union risco recente antiga) := by
  refine ⟨dropDuplicatesFirst_length _, ?_⟩
  simp [alerta_banco]

/-- C10: a row whose previous-week volume is missing or ≤ 0 gets NaN
weekly-variation percentages, and can only be risk-flagged through the
days-without-collection rule. -/
theorem C10_guarda_divisao_semanal (df : List RowRisco) (r : RowRisco)
    (hant : r.WoW_Semana_Anterior = none ∨
      ∃ a, r.WoW_Semana_Anterior = some a ∧ a ≤ 0) :
    variacaoSemanalPct r = none ∧ quedaSemanalPct r = none ∧
    (em_risco df r = true → r.Risco_Por_Dias_Sem_Coleta.getD false = true) := by
  have hpair : variacaoSemanalPct r = none ∧ quedaSemanalPct r = none := by
    rcases hant with h | ⟨a, h, ha⟩
    · cases hat : r.WoW_Semana_Atual <;>
        constructor <;> simp [variacaoSemanalPct, quedaSemanalPct, h, hat]
    · cases hat : r.WoW_Semana_Atual <;>
        constructor <;>
        simp [variacaoSemanalPct, quedaSemanalPct, h, hat, not_lt.mpr ha]
  refine ⟨hpair.1, hpair.2, ?_⟩
  intro hrisk
  unfold em_risco at hrisk
  by_cases hc : r.CNPJ_Normalizado ∈ cnpjs_perdas df
  · rw [if_pos hc] at hrisk
    exact absurd hrisk (by simp)
  · rw [if_neg hc] at hrisk
    have hqv : quedaValida r = false := by
      unfold quedaValida
      rw [hpair.2]
    rw [hqv, Bool.or_false] at hrisk
    exact hrisk

/-- C10 witness: a row with previous week 0 and current week 10 — both
percentage columns NaN, and the days-without-collection flag is what makes
it at risk. -/
theorem C10_guarda_divisao_semanal_witness :
    ((⟨"00000000000000", none, some 10, some 0, some true, none, none, none⟩ :
        RowRisco).WoW_Semana_Anterior = none ∨
      ∃ a, (⟨"00000000000000", none, some 10, some 0, some true, none, none,
          none⟩ : RowRisco).WoW_Semana_Anterior = some a ∧ a ≤ 0) ∧
    (variacaoSemanalPct
        ⟨"00000000000000", none, some 10, some 0, some true, none, none, none⟩
          = none ∧
     quedaSemanalPct
        ⟨"00000000000000", none, some 10, some 0, some true, none, none, none⟩
          = none ∧
     (em_risco [⟨"00000000000000", none, some 10, some 0, some true, none,
          none, none⟩]
        ⟨"00000000000000", none, some 10, some 0, some true, none, none, none⟩
          = true →
      (⟨"00000000000000", none, some 10, some 0, some true, none, none, none⟩ :
          RowRisco).Risco_Por_Dias_Sem_Coleta.getD false = true)) :=
  ⟨Or.inr ⟨0, rfl, le_rfl⟩,
    C10_guarda_divisao_semanal _ _ (Or.inr ⟨0, rfl, le_rfl⟩)⟩

/-- C1: loss takes precedence over risk — every row marked 'Perda Recente',
'Perda Antiga' or 'Perda Consolidada' has `Em_Risco = False` after
`preparar_dataframe_risco`, and its CNPJ is excluded from the rendered
risk list whatever drop filters are selected; hence loss set and risk set
are disjoint. -/
theorem C1_perda_precede_risco (df : List RowRisco)
    (fx f25 f24 fuf : List FaixaLimites) (r : RowRisco)
    (hmem : r ∈ df) (hperda : isPerda r = true) :
    em_risco df r = false ∧
    ∀ r' ∈ lista_risco df fx f25 f24 fuf,
      r'.CNPJ_Normalizado ≠ r.CNPJ_Normalizado := by
  have hcn : r.CNPJ_Normalizado ∈ cnpjs_perdas df :=
    List.mem_map.mpr ⟨r, List.mem_filter.mpr ⟨hmem, hperda⟩, rfl⟩
  constructor
  · unfold em_risco
    rw [if_pos hcn]
  · intro r' hr' heq
    have hnonnil : cnpjs_perdas df ≠ [] := List.ne_nil_of_mem hcn
    unfold lista_risco at hr'
    rw [if_neg hnonnil] at hr'
    have h2 := (List.mem_filter.mp hr').2
    rw [heq] at h2
    simp only [decide_eq_true_eq] at h2
    exact h2 hcn

/-- C1 witness: a two-row dataframe (one 'Perda Recente' with a weekly-drop
signal, one normal row) with the default 'Acima de 50%' filter — the loss
row is not at risk and its CNPJ is absent from the rendered list. -/
theorem C1_perda_precede_risco_witness :
    ((⟨"00000000000000000001", some "Perda Recente", some 0, some 100,
        some true, none, none, none⟩ : RowRisco) ∈
      [(⟨"00000000000000000001", some "Perda Recente", some 0, some 100,
          some true, none, none, none⟩ : RowRisco),
       ⟨"00000000000000000002", none, some 10, some 100, some false,
          none, none, none⟩]) ∧
    isPerda ⟨"00000000000000000001", some "Perda Recente", some 0, some 100,
        some true, none, none, none⟩ = true ∧
    (em_risco
        [⟨"00000000000000000001", some "Perda Recente", some 0, some 100,
            some true, none, none, none⟩,
         ⟨"00000000000000000002", none, some 10, some 100, some false,
            none, none, none⟩]
        ⟨"00000000000000000001", some "Perda Recente", some 0, some 100,
            some true, none, none, none⟩ = false ∧
     ∀ r' ∈ lista_risco
        [⟨"00000000000000000001", some "Perda Recente", some 0, some 100,
            some true, none, none, none⟩,
         ⟨"00000000000000000002", none, some 10, some 100, some false,
            none, none, none⟩]
        [some (some 50, none)] [] [] [],
      r'.CNPJ_Normalizado ≠ "00000000000000000001") :=
  ⟨by decide, by decide,
    C1_perda_precede_risco _ [some (some 50, none)] [] [] [] _
      (by decide) (by decide)⟩

/-! Lemmas about the `addExpected` backfill loop. -/

theorem lookup_isSome_iff_mem {α β : Type} [BEq α] [LawfulBEq α]
    (k : α) (l : List (α × β)) :
    (List.lookup k l).isSome = true ↔ k ∈ l.map Prod.fst := by
  induction l with
  | nil => simp [List.lookup]
  | cons p t ih =>
    obtain ⟨a, b⟩ := p
    by_cases h : k == a
    · have hka : k = a := eq_of_beq h
      simp [List.lookup, h, hka]
    · have hka : ¬ k = a := fun he => h (by simp [he])
      simp [List.lookup, h, ih, hka]

theorem lookup_addExpected_isSome {hojeDia : Int} {k : Int × Int} :
    ∀ (ks : List (Int × Int)) (acc : List ((Int × Int) × SemanaInfo)),
      (List.lookup k acc).isSome →
      List.lookup k (addExpected hojeDia ks acc) = List.lookup k acc := by
  intro ks
  induction ks with
  | nil => intro acc _; rfl
  | cons k0 ks ih =>
    intro acc h
    by_cases h0 : (List.lookup k0 acc).isSome
    · simp only [addExpected, if_pos h0]
      exact ih acc h
    · simp only [addExpected, if_neg h0]
      obtain ⟨v, hv⟩ := Option.isSome_iff_exists.mp h
      have hadd : List.lookup k (acc ++ [(k0, semanaZerada k0 hojeDia)])
          = some v := by
        rw [lookup_append, hv]
        rfl
      rw [ih _ (by rw [hadd]; rfl), hadd, hv]

theorem mem_keys_addExpected {hojeDia : Int} {k : Int × Int} :
    ∀ (ks : List (Int × Int)) (acc : List ((Int × Int) × SemanaInfo)),
      (k ∈ (addExpected hojeDia ks acc).map Prod.fst ↔
        k ∈ acc.map Prod.fst ∨ k ∈ ks) := by
  intro ks
  induction ks with
  | nil => intro acc; simp [addExpected]
  | cons k0 ks ih =>
    intro acc
    by_cases h0 : (List.lookup k0 acc).isSome
    · simp only [addExpected, if_pos h0]
      rw [ih acc]
      have hk0 : k0 ∈ acc.map Prod.fst := (lookup_isSome_iff_mem _ _).mp h0
      constructor
      · rintro (h | h)
        · exact Or.inl h
        · exact Or.inr (List.mem_cons_of_mem _ h)
      · rintro (h | h)
        · exact Or.inl h
        · rcases List.mem_cons.mp h with rfl | h
          · exact Or.inl hk0
          · exact Or.inr h
    · simp only [addExpected, if_neg h0]
      rw [ih _, List.map_append]
      simp only [List.map_cons, List.map_nil, List.mem_append,
        List.mem_singleton, List.mem_cons]
      tauto

theorem nodup_keys_addExpected {hojeDia : Int} :
    ∀ (ks : List (Int × Int)) (acc : List ((Int × Int) × SemanaInfo)),
      (acc.map Prod.fst).Nodup →
      ((addExpected hojeDia ks acc).map Prod.fst).Nodup := by
  intro ks
  induction ks with
  | nil => intro acc h; exact h
  | cons k0 ks ih =>
    intro acc h
    by_cases h0 : (List.lookup k0 acc).isSome
    · simp only [addExpected, if_pos h0]
      exact ih acc h
    · simp only [addExpected, if_neg h0]
      apply ih
      rw [List.map_append]
      simp only [List.map_cons, List.map_nil]
      rw [List.nodup_append]
      refine ⟨h, List.nodup_singleton _, ?_⟩
      intro a ha hb
      rw [List.mem_singleton] at hb
      subst hb
      exact h0 ((lookup_isSome_iff_mem _ _).mpr ha)

theorem lookup_addExpected_missing {hojeDia : Int} {k : Int × Int} :
    ∀ (ks : List (Int × Int)) (acc : List ((Int × Int) × SemanaInfo)),
      k ∈ ks → List.lookup k acc = none →
      List.lookup k (addExpected hojeDia ks acc)
        = some (semanaZerada k hojeDia) := by
  intro ks
  induction ks with
  | nil => intro acc hk; cases hk
  | cons k0 ks ih =>
    intro acc hk hnone
    by_cases heq : k = k0
    · subst heq
      have h0 : ¬ (List.lookup k acc).isSome = true := by
        rw [hnone]
        simp
      simp only [addExpected, if_neg h0]
      have hacc' : List.lookup k (acc ++ [(k, semanaZerada k hojeDia)])
          = some (semanaZerada k hojeDia) := by
        rw [lookup_append, hnone]
        simp [List.lookup]
      rw [lookup_addExpected_isSome ks _ (by rw [hacc']; rfl), hacc']
    · have hk' : k ∈ ks := by
        rcases List.mem_cons.mp hk with h | h
        · exact absurd h heq
        · exact h
      by_cases h0 : (List.lookup k0 acc).isSome
      · simp only [addExpected, if_pos h0]
        exact ih _ hk' hnone
      · simp only [addExpected, if_neg h0]
        apply ih _ hk'
        rw [lookup_append, hnone]
        have hb : (k == k0) = false := beq_eq_false_iff_ne.mpr heq
        simp [List.lookup, hb]

/-- `datetime.fromisocalendar(y, w, 7)` (the week's end used by the
backfill) is the Monday of that ISO week plus six days, i.e. its Sunday. -/
theorem fromisocalendar_seven (y w : Int) :
    fromisocalendar y w 7 = fromisocalendar y w 1 + 6 := by
  unfold fromisocalendar
  ring

/-- C6: with no week filter selected, the weekly table emits exactly one
record per ISO `(year, week)` pair containing at least one calendar day of
the current month — when the source weeks all lie in the month, the keys
are exactly the expected pairs, without duplicates, the row count equals
the number of such weeks, and every week absent from the source appears
as the zeroed record with date-derived closed flag. -/
theorem C6_backfill_semanas (src : List ((Int × Int) × SemanaInfo))
    (y m d : Int) (hnd : (src.map Prod.fst).Nodup)
    (hsub : ∀ k ∈ src.map Prod.fst, k ∈ expected_keys y m) :
    (∀ k : Int × Int, k ∈ (tabela_semanas src y m d).map Prod.fst ↔
        k ∈ expected_keys y m) ∧
    ((tabela_semanas src y m d).map Prod.fst).Nodup ∧
    (tabela_semanas src y m d).length = (expected_keys y m).length ∧
    (∀ k ∈ expected_keys y m, k ∉ src.map Prod.fst →
        List.lookup k (tabela_semanas src y m d)
          = some (semanaZerada k (daysFromCivil y m d))) ∧
    (∀ k : Int × Int, k ∈ expected_keys y m ↔
        ∃ n ∈ monthDays y m, isoYearWeek n = k) := by
  have hmem : ∀ k : Int × Int, k ∈ (tabela_semanas src y m d).map Prod.fst ↔
      k ∈ expected_keys y m := by
    intro k
    unfold tabela_semanas
    rw [mem_keys_addExpected (expected_keys y m) src]
    constructor
    · rintro (h | h)
      · exact hsub k h
      · exact h
    · exact Or.inr
  have hnodup : ((tabela_semanas src y m d).map Prod.fst).Nodup :=
    nodup_keys_addExpected _ _ hnd
  refine ⟨hmem, hnodup, ?_, ?_, ?_⟩
  · have h1 : (tabela_semanas src y m d).length
        = ((tabela_semanas src y m d).map Prod.fst).length :=
      (List.length_map _ _).symm
    have hnd2 : (expected_keys y m).Nodup := List.nodup_dedup _
    have hfs : ((tabela_semanas src y m d).map Prod.fst).toFinset
        = (expected_keys y m).toFinset := by
      ext k
      simp only [List.mem_toFinset]
      exact hmem k
    calc (tabela_semanas src y m d).length
        = ((tabela_semanas src y m d).map Prod.fst).length := h1
      _ = ((tabela_semanas src y m d).map Prod.fst).toFinset.card :=
          (List.toFinset_card_of_nodup hnodup).symm
      _ = (expected_keys y m).toFinset.card := by rw [hfs]
      _ = (expected_keys y m).length := List.toFinset_card_of_nodup hnd2
  · intro k hk hnotin
    apply lookup_addExpected_missing _ _ hk
    cases hl : List.lookup k src with
    | none => rfl
    | some v =>
      exact absurd ((lookup_isSome_iff_mem k src).mp (by rw [hl]; rfl)) hnotin
  · intro k
    simp [expected_keys, List.mem_dedup, List.mem_map]

/-- C6 witness: August 2025 (spanning ISO weeks 31–35) with source data for
weeks 32–34 only, today 2025-08-20 — the table still covers all 5 weeks. -/
theorem C6_backfill_semanas_witness :
    (([((2025, 32), ⟨100, 90, true⟩), ((2025, 33), ⟨80, 100, true⟩),
        ((2025, 34), ⟨50, 80, false⟩)] :
        List ((Int × Int) × SemanaInfo)).map Prod.fst).Nodup ∧
    (∀ k ∈ ([((2025, 32), ⟨100, 90, true⟩), ((2025, 33), ⟨80, 100, true⟩),
        ((2025, 34), ⟨50, 80, false⟩)] :
        List ((Int × Int) × SemanaInfo)).map Prod.fst,
      k ∈ expected_keys 2025 8) ∧
    ((∀ k : Int × Int,
        k ∈ (tabela_semanas [((2025, 32), ⟨100, 90, true⟩),
            ((2025, 33), ⟨80, 100, true⟩), ((2025, 34), ⟨50, 80, false⟩)]
            2025 8 20).map Prod.fst ↔ k ∈ expected_keys 2025 8) ∧
     ((tabela_semanas [((2025, 32), ⟨100, 90, true⟩),
         ((2025, 33), ⟨80, 100, true⟩), ((2025, 34), ⟨50, 80, false⟩)]
         2025 8 20).map Prod.fst).Nodup ∧
     (tabela_semanas [((2025, 32), ⟨100, 90, true⟩),
         ((2025, 33), ⟨80, 100, true⟩), ((2025, 34), ⟨50, 80, false⟩)]
         2025 8 20).length = (expected_keys 2025 8).length ∧
     (∀ k ∈ expected_keys 2025 8,
        k ∉ ([((2025, 32), ⟨100, 90, true⟩), ((2025, 33), ⟨80, 100, true⟩),
            ((2025, 34), ⟨50, 80, false⟩)] :
            List ((Int × Int) × SemanaInfo)).map Prod.fst →
        List.lookup k (tabela_semanas [((2025, 32), ⟨100, 90, true⟩),
            ((2025, 33), ⟨80, 100, true⟩), ((2025, 34), ⟨50, 80, false⟩)]
            2025 8 20)
          = some (semanaZerada k (daysFromCivil 2025 8 20))) ∧
     (∀ k : Int × Int, k ∈ expected_keys 2025 8 ↔
        ∃ n ∈ monthDays 2025 8, isoYearWeek n = k)) :=
  ⟨by decide, by decide,
    C6_backfill_semanas _ 2025 8 20 (by decide) (by decide)⟩

-- The concrete 5-row count of the C6 scenario (5 ISO weeks, 3 with data).
example : (expected_keys 2025 8).length = 5 := by decide
example :
    (tabela_semanas [((2025, 32), ⟨100, 90, true⟩), ((2025, 33), ⟨80, 100, true⟩),
        ((2025, 34), ⟨50, 80, false⟩)] 2025 8 20).length = 5 := by decide

/-- C7 counterexample: the claim "closed iff the week's *Friday* is strictly
before today" fails on the backfilled record for ISO week 41 of 2025 when
today is Saturday 2025-10-11: its Friday (2025-10-10) is already past, yet
the emitted flag is `false` (the code compares the week's day 7, Sunday). -/
theorem C7_fechada_counterexample :
    ¬ (∀ k ∈ expected_keys 2025 10,
        k ∉ ([] : List ((Int × Int) × SemanaInfo)).map Prod.fst →
        ∀ info : SemanaInfo,
          List.lookup k (tabela_semanas [] 2025 10 11) = some info →
          (info.fechada = true ↔
            fromisocalendar k.1 k.2 5 < daysFromCivil 2025 10 11)) := by
  intro h
  have h41 := h (2025, 41) (by decide) (by decide) ⟨0, 0, false⟩ (by decide)
  exact absurd (h41.mpr (by decide)) (by decide)

/-- C7 (amended): for every backfilled weekly record the closed flag is true
iff that ISO week's **Sunday** (its Monday plus six days) is strictly
before today's date. -/
theorem C7_fechada_por_domingo (src : List ((Int × Int) × SemanaInfo))
    (y m d : Int) (k : Int × Int) (hk : k ∈ expected_keys y m)
    (hnotin : k ∉ src.map Prod.fst) :
    ∃ info : SemanaInfo,
      List.lookup k (tabela_semanas src y m d) = some info ∧
      (info.fechada = true ↔
        fromisocalendar k.1 k.2 1 + 6 < daysFromCivil y m d) := by
  have hnone : List.lookup k src = none := by
    cases hl : List.lookup k src with
    | none => rfl
    | some v =>
      exact absurd ((lookup_isSome_iff_mem k src).mp (by rw [hl]; rfl)) hnotin
  refine ⟨semanaZerada k (daysFromCivil y m d),
    lookup_addExpected_missing _ _ hk hnone, ?_⟩
  show fechadaBackfill k.1 k.2 (daysFromCivil y m d) = true ↔ _
  rw [fechadaBackfill, ← fromisocalendar_seven]
  exact decide_eq_true_iff

/-- C7 witness: the backfilled week 41 of October 2025 with today Saturday
2025-10-11 — its Sunday 2025-10-12 is not yet past, so the record is open. -/
theorem C7_fechada_por_domingo_witness :
    (((2025:Int), (41:Int)) ∈ expected_keys 2025 10) ∧
    (((2025:Int), (41:Int)) ∉
      (([] : List ((Int × Int) × SemanaInfo)).map Prod.fst)) ∧
    (∃ info : SemanaInfo,
      List.lookup ((2025:Int), (41:Int)) (tabela_semanas [] 2025 10 11)
        = some info ∧
      (info.fechada = true ↔
        fromisocalendar 2025 41 1 + 6 < daysFromCivil 2025 10 11)) :=
  ⟨by decide, by decide,
    C7_fechada_por_domingo [] 2025 10 11 (2025, 41) (by decide) (by decide)⟩

-- Sanity: Monday + 6 of ISO week (2025, 41) is indeed its Sunday.
example : isoYearWeek (fromisocalendar 2025 41 1 + 6) = (2025, 41) := by decide
example : weekdayMon (fromisocalendar 2025 41 1 + 6) = 6 := by decide

end Claims

end Syntox
